import Mathlib

/-!
Verification development for the kma_api fusion-weather pipeline.

Shallow embedding of the core of `src/fusion/pipeline.py`,
`src/fusion/download.py`, `src/fusion/aggregate.py`, `src/fusion/config.py`
and `src/run_download_fusion.py`.

Modelling conventions:
* numeric values are rationals (`ℚ`); a pandas/numpy NaN (missing value)
  is `none : Option ℚ`;
* a raised Python exception is an `Except.error`/`ParseResult.error`
  carrying the message, a returned Python `None` is modelled explicitly;
* HTTP traffic is abstracted by `HttpOutcome`, one value per
  `requests.get` call, supplied as an oracle to the retry loops.
-/

namespace KmaFusion

/-- Two-digit zero-padded rendering of a natural number, mirroring the
Python format spec `02d` used for hour labels (values below 100 only,
which is all the code ever formats). -/
def pad2 (n : ℕ) : String :=
  if n < 10 then "0" ++ toString n else toString n

/-- ASCII lower-casing of one character (the Python `str.lower()` on
the ASCII responses this code handles). Implemented structurally so the
kernel can evaluate it. -/
def lowerChar (c : Char) : Char :=
  if 65 ≤ c.toNat ∧ c.toNat ≤ 90 then Char.ofNat (c.toNat + 32) else c

/-- Substring occurrence test over character lists (Python `pat in s`),
implemented structurally so the kernel can evaluate it. -/
def containsSub : List Char → List Char → Bool
  | hay, pat =>
    if pat.isPrefixOf hay then true
    else
      match hay with
      | [] => false
      | _ :: t => containsSub t pat

/-- Substring test: `containsStr s pat` holds when `pat` occurs in `s`
(models Python's `pat in s`). -/
def containsStr (s pat : String) : Bool :=
  containsSub s.data pat.data

/-- Python `str.strip()` over the character list (leading and trailing
whitespace removed). -/
def pyStrip (cs : List Char) : List Char :=
  ((cs.dropWhile Char.isWhitespace).reverse.dropWhile Char.isWhitespace).reverse

/-- Decimal digit value of a character, if it is a digit. -/
def digitVal? (c : Char) : Option ℕ :=
  if 48 ≤ c.toNat ∧ c.toNat ≤ 57 then some (c.toNat - 48) else none

/-- Python `int(s)` on the non-negative decimal strings this code
feeds it (date substrings): `none` models the raised ValueError on a
non-digit string. Implemented structurally so the kernel can evaluate
it. -/
def pyInt (s : String) : Option ℕ :=
  if s.data.isEmpty then none
  else
    s.data.foldl (fun acc c =>
      match acc, digitVal? c with
      | some a, some d => some (a * 10 + d)
      | _, _ => none) (some 0)

/-- Helper for `dedupFirst`: keeps the elements not yet seen, in
order, remembering the seen ones (structural recursion so the kernel
can evaluate it). -/
def dedupFirstAux [DecidableEq α] : List α → List α → List α
  | _, [] => []
  | seen, a :: l =>
      if a ∈ seen then dedupFirstAux seen l
      else a :: dedupFirstAux (a :: seen) l

/-- First-occurrence deduplication, keeping the order in which distinct
elements first appear (used to model the set of pandas group keys). -/
def dedupFirst [DecidableEq α] (l : List α) : List α :=
  dedupFirstAux [] l

/-! ## Grid-response parser (`FusionPipeline._parse_grid_response`) -/

/-- Outcome of the strict grid-response parser: `error` models a raised
`ValueError`, `noData` models the function returning Python `None`, and
`ok` the returned numpy array (entry `none` = NaN). -/
inductive ParseResult where
  | error (msg : String)
  | noData
  | ok (values : List (Option ℚ))
deriving DecidableEq, Repr

/-- Python test `float(int(x)) == x` on a rational token: the token is an
integer. -/
def isIntTok (q : ℚ) : Bool :=
  q.den == 1

/-- Scan for a stray dimension header (pipeline.py lines 766-778): the
first index `i` below `min 20 (length - 1)` such that tokens `i` and
`i+1` are both integers whose product equals the expected grid count.
Returns the cut position `i + 2` (the code then keeps `raw[i+2:]`). -/
def findHeaderCut (raw : List ℚ) (expected : ℕ) : Option ℕ :=
  (List.range (min 20 (raw.length - 1))).findSome? (fun i =>
    match raw[i]?, raw[i+1]? with
    | some a, some b =>
        if isIntTok a ∧ isIntTok b ∧ a.num * b.num = (expected : ℤ)
        then some (i + 2) else none
    | _, _ => none)

/-- Sentinel normalization applied at parse time (pipeline.py lines
796-806): a value strictly below -900 or strictly above 2000 becomes
the missing marker (NaN); every other value is kept unchanged. -/
def normalizeSentinel (v : ℚ) : Option ℚ :=
  if v < -900 ∨ v > 2000 then none else some v

/-- Core of `_parse_grid_response` from the point where the numeric
tokens `raw_numbers` have been extracted (pipeline.py lines 746-808):
empty token list returns `None`; when the expected grid count is known
and positive, a count mismatch tries the single header-strip heuristic
and any remaining mismatch raises; finally every token is
sentinel-normalized. -/
def strippedTokens (raw : List ℚ) (n : ℕ) : List ℚ :=
  if raw.length ≠ n ∧ raw.length > n then
    match findHeaderCut raw n with
    | some cut => raw.drop cut
    | none => raw
  else raw

def parseGridTokens (raw : List ℚ) (expected : Option ℕ) : ParseResult :=
  if raw.isEmpty then .noData
  else
    match expected with
    | some n =>
        if 0 < n then
          if (strippedTokens raw n).length ≠ n then .error "grid token count mismatch"
          else .ok ((strippedTokens raw n).map normalizeSentinel)
        else .ok (raw.map normalizeSentinel)
    | none => .ok (raw.map normalizeSentinel)

/-- One line of the ASCII response as `_parse_grid_response` sees it:
whether the stripped line is empty, whether it starts with the comment
marker, and the `float()` outcome of each whitespace/comma-separated
token (`none` for a token that fails to parse, which the code skips). -/
structure RawLine where
  isBlank : Bool
  isComment : Bool
  tokens : List (Option ℚ)
deriving DecidableEq, Repr

/-- Numeric tokens extracted from the non-blank non-comment lines
(pipeline.py lines 730-744). -/
def dataTokens (lines : List RawLine) : List ℚ :=
  ((lines.filter (fun l => !l.isBlank && !l.isComment)).map
    RawLine.tokens).flatten.filterMap id

/-- Full `_parse_grid_response` (pipeline.py lines 717-814) over the
line model: no data lines at all returns `None`, otherwise the token
list is handed to `parseGridTokens`. -/
def parse_grid_response (lines : List RawLine) (expected : Option ℕ) :
    ParseResult :=
  if (lines.filter (fun l => !l.isBlank && !l.isComment)).isEmpty then .noData
  else parseGridTokens (dataTokens lines) expected

/-! ## Bucket-column labels (`FusionConfig.get_hourly_columns` and the
label construction inside `TimeAggregator.pivot_hourly_to_columns`) -/

/-- Per-row column label built in `pivot_hourly_to_columns`
(aggregate.py lines 138-148): 3-hourly buckets use `h` to `h+3` without
wrap, hourly buckets use `h` to `(h+1) mod 24`. -/
def colName (pfx : String) (is3h : Bool) (h : ℕ) : String :=
  if is3h then pfx ++ pad2 h ++ pad2 (h + 3)
  else pfx ++ pad2 h ++ pad2 ((h + 1) % 24)

/-- `FusionConfig.get_hourly_columns` (config.py lines 103-116):
canonical label list for a 24-bucket or an 8-bucket variable; any other
bucket count raises (`none`). -/
def get_hourly_columns (pfx : String) (hours : ℕ) : Option (List String) :=
  if hours = 24 then
    some ((List.range 24).map (fun h => pfx ++ pad2 h ++ pad2 ((h + 1) % 24)))
  else if hours = 8 then
    some ((List.range 8).map (fun h => pfx ++ pad2 (h * 3) ++ pad2 ((h + 1) * 3)))
  else none

/-! ## Spatial aggregation (`SpatialAggregator.aggregate_grid_to_lawid`) -/

/-- One row of the pivoted grid table handed to the spatial aggregator:
a grid index, a date, and one optional value per value column (aligned
with the column-name list; `none` = NaN). -/
structure GridRow where
  grid_idx : ℕ
  date : String
  vals : List (Option ℚ)
deriving DecidableEq, Repr

/-- Column-class test (aggregate.py line 220): precipitation/snow
columns are those whose name starts with "p" or "s" (prefix test over
the character list, so the kernel can evaluate it). -/
def startsWithPS (c : String) : Bool :=
  "p".data.isPrefixOf c.data || "s".data.isPrefixOf c.data

/-- The fillna(0) step (aggregate.py lines 220-222): in every
precipitation/snow column a missing value becomes 0; every other column
is left untouched. -/
def fillRow (cols : List String) (vals : List (Option ℚ)) : List (Option ℚ) :=
  (cols.zip vals).map (fun cv => if startsWithPS cv.1 then some (cv.2.getD 0) else cv.2)

/-- pandas mean over one group column: NaN entries are skipped; an
all-NaN column yields NaN. -/
def meanOpt (vs : List (Option ℚ)) : Option ℚ :=
  let present := vs.filterMap id
  if present.isEmpty then none else some (present.sum / present.length)

/-- pandas sum over one group column: NaN entries are skipped; an
all-NaN column sums to 0. -/
def sumOpt (vs : List (Option ℚ)) : Option ℚ :=
  some (vs.filterMap id).sum

/-- pandas median over one group column: NaN entries are skipped; the
median of the sorted present values (mean of the two central ones for
an even count); an all-NaN column yields NaN. -/
def medianOpt (vs : List (Option ℚ)) : Option ℚ :=
  let present := (vs.filterMap id).mergeSort (fun a b => decide (a ≤ b))
  if present.isEmpty then none
  else if present.length % 2 = 1 then some (present.getD (present.length / 2) 0)
  else some ((present.getD (present.length / 2 - 1) 0 + present.getD (present.length / 2) 0) / 2)

/-- The fixed method set of `aggregate_grid_to_lawid` (any other method
string raises before any work happens). -/
inductive AggMethod where
  | mean
  | sum
  | median
deriving DecidableEq, Repr

def applyMethod : AggMethod → List (Option ℚ) → Option ℚ
  | .mean => meanOpt
  | .sum => sumOpt
  | .median => medianOpt

/-- Left-join to the grid-to-region mapping followed by dropping the
rows whose LAW_ID is null (aggregate.py lines 208-215), keeping the
region id with each surviving row. -/
def joinMapped (mapping : ℕ → Option ℤ) (rows : List GridRow) :
    List (ℤ × GridRow) :=
  rows.filterMap (fun r => (mapping r.grid_idx).map (fun law => (law, r)))

/-- Group keys: the distinct (date, LAW_ID) pairs among the joined rows
(the code groups by date and LAW_ID, aggregate.py lines 228-238; pandas
additionally sorts the keys, which none of the stated theorems depend
on, so first-occurrence order is used here). -/
def groupKeys (mapping : ℕ → Option ℤ) (rows : List GridRow) :
    List (String × ℤ) :=
  dedupFirst ((joinMapped mapping rows).map (fun p => (p.2.date, p.1)))

/-- The joined rows after the zero-fill step, keyed by (date, LAW_ID):
the table on which the groupby runs. -/
def filledRows (mapping : ℕ → Option ℤ) (rows : List GridRow)
    (cols : List String) : List ((String × ℤ) × List (Option ℚ)) :=
  (joinMapped mapping rows).map
    (fun p => ((p.2.date, p.1), fillRow cols p.2.vals))

/-- `aggregate_grid_to_lawid` (aggregate.py lines 188-242): join to the
mapping, drop unmapped rows, zero-fill missing precipitation/snow
values, then group by (date, LAW_ID) and reduce every value column with
the configured method. One output entry per group key, the value list
aligned with `cols`. -/
def aggregate_grid_to_lawid (mapping : ℕ → Option ℤ) (rows : List GridRow)
    (cols : List String) (method : AggMethod) :
    List ((String × ℤ) × List (Option ℚ)) :=
  (groupKeys mapping rows).map (fun k =>
    (k, (List.range cols.length).map (fun j =>
      applyMethod method (((filledRows mapping rows cols).filter
        (fun q => q.1 = k)).map (fun q => q.2.getD j none)))))

/-- The rows of one (date, LAW_ID) group, as the groupby sees them
(before the reduce): the joined-and-kept grid rows whose key matches. -/
def groupRows (mapping : ℕ → Option ℤ) (rows : List GridRow)
    (k : String × ℤ) : List GridRow :=
  ((joinMapped mapping rows).filter (fun p => (p.2.date, p.1) = k)).map
    Prod.snd

/-! ## Time pivot (`TimeAggregator.pivot_hourly_to_columns`) -/

/-- One row of the cached raw table: (grid_idx, date, hour, value). -/
structure HourRow where
  grid_idx : ℕ
  date : String
  hour : ℕ
  value : Option ℚ
deriving DecidableEq, Repr

/-- Key of one `pivot_table` group: (grid_idx, date, col_name). -/
def aggKey (pfx : String) (is3h : Bool) (r : HourRow) : ℕ × String × String :=
  (r.grid_idx, r.date, colName pfx is3h r.hour)

/-- pandas `GroupBy.first`: the first non-NaN value of the group, NaN
when there is none. -/
def firstSome (l : List (Option ℚ)) : Option ℚ :=
  (l.filterMap id).head?

/-- The aggregated (grid_idx, date, col_name) table built inside
`pivot_table(aggfunc='first')` (aggregate.py lines 157-162): one entry
per distinct key holding the first non-NaN group value, with the
all-NaN groups dropped (pandas `pivot_table` runs
`agged.dropna(how="all")` before unstacking, so a key whose only values
are NaN disappears). -/
def aggedOf (pfx : String) (is3h : Bool) (rows : List HourRow) :
    List ((ℕ × String × String) × ℚ) :=
  (dedupFirst (rows.map (aggKey pfx is3h))).filterMap (fun k =>
    (firstSome ((rows.filter (fun r => aggKey pfx is3h r = k)).map
      HourRow.value)).map (fun v => (k, v)))

/-- Cell lookup in the unstacked table: the aggregated value of group
(g, d, c), NaN when that group was dropped or never existed. -/
def aggLookup (agged : List ((ℕ × String × String) × ℚ))
    (g : ℕ) (d : String) (c : String) : Option ℚ :=
  (agged.find? (fun kv => kv.1 = (g, d, c))).map (fun kv => kv.2)

/-- Canonical column order (aggregate.py lines 165-168). -/
def colOrder (pfx : String) (is3h : Bool) : List String :=
  if is3h then (List.range 8).map (fun h => pfx ++ pad2 (h * 3) ++ pad2 ((h + 1) * 3))
  else (List.range 24).map (fun h => pfx ++ pad2 h ++ pad2 ((h + 1) % 24))

/-- Output of the pivot: row keys (grid_idx, date), the retained value
columns in canonical order, and the cell matrix (one list per key,
aligned with `cols`). -/
structure PivotedTable where
  keys : List (ℕ × String)
  cols : List String
  cells : List (List (Option ℚ))
deriving DecidableEq, Repr

/-- `pivot_hourly_to_columns` (aggregate.py lines 115-174): group by
(grid_idx, date, col_name) with aggfunc `first`, drop all-NaN groups,
unstack (row keys = distinct surviving (grid_idx, date), columns =
distinct surviving col_name), drop columns whose cells are all NaN,
and finally keep the canonical columns that still exist, in canonical
order. pandas sorts row keys and columns; the theorems below do not
depend on the order, so first-occurrence order is used. -/
def pivot_hourly_to_columns (rows : List HourRow) (pfx : String)
    (is3h : Bool) : PivotedTable :=
  let agged := aggedOf pfx is3h rows
  let keys := dedupFirst (agged.map (fun kv => (kv.1.1, kv.1.2.1)))
  let unstackCols := dedupFirst (agged.map (fun kv => kv.1.2.2))
  let tableCols := unstackCols.filter (fun c =>
    keys.any (fun k => (aggLookup agged k.1 k.2 c).isSome))
  let existing := (colOrder pfx is3h).filter (fun c => tableCols.contains c)
  { keys := keys
    cols := existing
    cells := keys.map (fun k => existing.map (fun c => aggLookup agged k.1 k.2 c)) }

/-! ## Downloader (`FusionDataDownloader.download_hour_all_grid`) -/

/-- Abstract outcome of one `requests.get` call: either a status code
with a body, or a raised transport exception. -/
inductive HttpOutcome where
  | response (status : ℕ) (body : String)
  | exn (msg : String)
deriving DecidableEq, Repr

/-- `_looks_like_error_response` (download.py lines 68-86): empty
stripped body, an HTML-looking body, a forbidden/unauthorized message,
or an "error" body with no data-comment marker all count as an
error-looking response. (Character-list implementation of the Python
string operations, so the kernel can evaluate it.) -/
def looks_like_error_response (text : String) : Bool :=
  let t := pyStrip text.data
  if t.isEmpty then true
  else
    let head := (t.take 400).map lowerChar
    if containsSub head "<html".data || containsSub head "<!doctype html".data then true
    else if containsSub head "forbidden".data || containsSub head "unauthorized".data then true
    else if containsSub head "error".data && !containsSub head "#".data then true
    else false

/-- Failure classes of one download-plus-parse attempt in the pipeline
retry loop. -/
inductive FailKind where
  | emptyResponse
  | parseFailure
  | parsedEmpty
  | lengthMismatch
deriving DecidableEq, Repr

/-- Validation-log entries, in append order: the three downloader-side
ERROR entries, the pipeline's per-attempt failure entry, the INFO entry
written before each retry sleep, and the final ERROR entry written just
before the RuntimeError is raised. -/
inductive LogEvent where
  | dl403
  | dlBadBody
  | dlExn (msg : String)
  | attemptFail (kind : FailKind) (attempt : ℕ) (level : String)
  | retryWait (sleep : ℚ) (nextAttempt : ℕ)
  | finalFail
deriving DecidableEq, Repr

/-- `download_hour_all_grid` for an ASCII request with no save
directory, exactly as the pipeline calls it (download.py lines 88-171):
the returned body (`none` when the call failed) together with the
validation-log entries the downloader itself appends. A 403 logs an
ERROR and returns `None` right away; any other 4xx/5xx raises inside
the `try` via `raise_for_status` and is caught, also returning `None`;
a body that looks like an error/HTML page returns `None` after
logging. -/
def download_hour_all_grid (o : HttpOutcome) : Option String × List LogEvent :=
  match o with
  | .exn m => (none, [.dlExn m])
  | .response status body =>
      if status = 403 then (none, [.dl403])
      else if 400 ≤ status ∧ status < 600 then (none, [.dlExn "HTTPError"])
      else if looks_like_error_response body then (none, [.dlBadBody])
      else (some body, [])

/-! ## Per-bucket retry loop (`FusionPipeline._load_or_download_day`) -/

/-- Retry knobs from FusionConfig (config.py lines 59-61). -/
structure RetryCfg where
  attempts : ℕ
  initialSleep : ℚ
  backoff : ℚ
deriving DecidableEq, Repr

/-- Default retry configuration (config.py lines 59-61). -/
def defaultRetryCfg : RetryCfg :=
  { attempts := 3, initialSleep := 10, backoff := 2 }

/-- `max(1, config.download_retry_attempts)` (pipeline.py line 567). -/
def retryAttempts (cfg : RetryCfg) : ℕ :=
  max 1 cfg.attempts

/-- `_get_validation_log_path` (pipeline.py lines 220-226), relative to
the fusion_raw directory. -/
def validationLogPath (date var : String) : String :=
  "_validation_logs/" ++ date.take 4 ++ "/" ++ (date.drop 4).take 2
    ++ "/" ++ date ++ "_" ++ var ++ ".txt"

/-- One download-plus-parse attempt of the per-bucket retry loop
(pipeline.py lines 579-650): the parsed grid values on success, the log
entries appended by the downloader during the attempt, and on failure
the failure kind the pipeline logs. An empty parse result and a
parse-level `None` are both "parsed empty"; with a known expected grid
count a wrong-length result is rejected by the defensive re-check. -/
def runAttempt (parseFn : String → ParseResult) (expected : Option ℕ)
    (o : HttpOutcome) :
    Option (List (Option ℚ)) × List LogEvent × Option FailKind :=
  match download_hour_all_grid o with
  | (none, dlLogs) => (none, dlLogs, some .emptyResponse)
  | (some body, dlLogs) =>
      match parseFn body with
      | .error _ => (none, dlLogs, some .parseFailure)
      | .noData => (none, dlLogs, some .parsedEmpty)
      | .ok vs =>
          if vs.isEmpty then (none, dlLogs, some .parsedEmpty)
          else
            match expected with
            | some n =>
                if vs.length ≠ n then (none, dlLogs, some .lengthMismatch)
                else (some vs, dlLogs, none)
            | none => (some vs, dlLogs, none)

/-- Log level of a failed attempt (pipeline.py: WARN before the final
attempt, ERROR on the final attempt). -/
def levelOf (attempt total : ℕ) : String :=
  if attempt < total then "WARN" else "ERROR"

deriving instance DecidableEq for Except

/-- Result of one bucket acquisition: the parsed values or the raised
RuntimeError message, how many attempts ran, the sleeps performed
before retries (in order), and the validation-log entries appended. -/
structure FetchOut where
  result : Except String (List (Option ℚ))
  attemptsUsed : ℕ
  sleeps : List ℚ
  logs : List LogEvent
deriving DecidableEq, Repr

/-- RuntimeError message raised after the retries are exhausted
(pipeline.py line 681); it carries the validation-log location. -/
def retryFailMsg (tm var date : String) : String :=
  ("download/parse retries exhausted: " ++ tm ++ " " ++ var
    ++ ". validation_log=") ++ validationLogPath date var

/-- The per-bucket retry loop (pipeline.py lines 571-681): `k` is the
current 1-based attempt number, `fuel` the number of attempts still
allowed, `outcomes k` the HTTP outcome of attempt `k`. A failed
non-final attempt logs the failure, logs the retry INFO entry, sleeps
`initialSleep * backoff ^ (k - 1)` and recurses; a failed final attempt
logs the failure and the final ERROR entry and raises. A successful
attempt appends no pipeline log entry. -/
def fetchGo (parseFn : String → ParseResult) (expected : Option ℕ)
    (cfg : RetryCfg) (outcomes : ℕ → HttpOutcome) (total : ℕ)
    (tm var date : String) : ℕ → ℕ → FetchOut
  | _, 0 =>
      { result := .error (retryFailMsg tm var date), attemptsUsed := 0,
        sleeps := [], logs := [.finalFail] }
  | k, fuel + 1 =>
      match runAttempt parseFn expected (outcomes k) with
      | (some vs, dlLogs, _) =>
          { result := .ok vs, attemptsUsed := k, sleeps := [], logs := dlLogs }
      | (none, dlLogs, kind?) =>
          let kind := kind?.getD .emptyResponse
          let failLog := LogEvent.attemptFail kind k (levelOf k total)
          if fuel = 0 then
            { result := .error (retryFailMsg tm var date), attemptsUsed := k,
              sleeps := [], logs := dlLogs ++ [failLog, .finalFail] }
          else
            let s := cfg.initialSleep * cfg.backoff ^ (k - 1)
            let rest := fetchGo parseFn expected cfg outcomes total tm var date (k + 1) fuel
            { result := rest.result, attemptsUsed := rest.attemptsUsed,
              sleeps := s :: rest.sleeps,
              logs := dlLogs ++ [failLog, .retryWait s (k + 1)] ++ rest.logs }

/-- One bucket acquisition with the configured attempt budget. -/
def fetch_bucket (parseFn : String → ParseResult) (expected : Option ℕ)
    (cfg : RetryCfg) (outcomes : ℕ → HttpOutcome) (tm var date : String) :
    FetchOut :=
  fetchGo parseFn expected cfg outcomes (retryAttempts cfg) tm var date 1
    (retryAttempts cfg)

/-! ## Day acquisition (`FusionPipeline._load_or_download_day`) -/

/-- Hour list for a variable (pipeline.py lines 557-562): 3-hourly snow
uses 0,3,...,21, everything else the 24 hours. -/
def bucketHours (is3h : Bool) : List ℕ :=
  if is3h then (List.range 8).map (fun k => k * 3) else List.range 24

/-- One per-hour block of the cache record: the hour and one value per
grid index 0..len-1 (pipeline.py lines 683-688). -/
structure HourFrame where
  hour : ℕ
  values : List (Option ℚ)
deriving DecidableEq, Repr

/-- Timestamp string for one bucket (pipeline.py line 572). -/
def tmOf (date : String) (hour : ℕ) : String :=
  date ++ pad2 hour ++ "00"

/-- Download loop over the day's buckets inside `_load_or_download_day`
(pipeline.py lines 571-692): the i-th bucket uses `outcomes i` as its
per-attempt HTTP oracle; the first exhausted bucket propagates its
RuntimeError. -/
def dayGo (parseFn : String → ParseResult) (expected : Option ℕ)
    (cfg : RetryCfg) (outcomes : ℕ → ℕ → HttpOutcome) (var date : String) :
    List ℕ → ℕ → Except String (List HourFrame)
  | [], _ => .ok []
  | h :: rest, i =>
      match (fetch_bucket parseFn expected cfg (outcomes i) (tmOf date h) var date).result with
      | .error m => .error m
      | .ok vs =>
          match dayGo parseFn expected cfg outcomes var date rest (i + 1) with
          | .error m => .error m
          | .ok frames => .ok ({ hour := h, values := vs } :: frames)

/-- Cache-miss path of `_load_or_download_day` (pipeline.py lines
535-715): every bucket is fetched in order, the defensive missing-hour
check runs, and only then does the single `to_parquet` cache write
happen. `.ok frames` is the committed cache record (one frame per
bucket); `.error` is the propagated exception, in which case nothing
was written. -/
def load_or_download_day (parseFn : String → ParseResult)
    (expected : Option ℕ) (cfg : RetryCfg)
    (outcomes : ℕ → ℕ → HttpOutcome) (is3h : Bool) (var date : String) :
    Except String (List HourFrame) :=
  match dayGo parseFn expected cfg outcomes var date (bucketHours is3h) 0 with
  | .error m => .error m
  | .ok frames =>
      if frames.length ≠ (bucketHours is3h).length then .error "missing hour buckets"
      else .ok frames

/-- Row count of a committed cache record: sum over the hour frames of
their grid-value counts. -/
def cacheRows (frames : List HourFrame) : ℕ :=
  (frames.map (fun f => f.values.length)).sum

/-! ## Phase-A day cache (`FusionPipeline.ensure_day_cache`) -/

/-- `FusionConfig.snow_start_year` (config.py line 92). -/
def snowStartYear : ℕ := 2020

/-- First half of the seasonal/availability exclusion (pipeline.py
lines 116-119): snow is removed for years before `snowStartYear`. -/
def snowFilter1 (year : ℕ) (varList : List String) : List String :=
  if "sd_3hr" ∈ varList ∧ year < snowStartYear
  then varList.filter (fun v => v ≠ "sd_3hr") else varList

/-- Seasonal/availability exclusion applied to the requested variable
list before any download (pipeline.py lines 113-121): snow is removed
for years before `snowStartYear` and for the summer months 6-9 (both
membership tests are on the original list, as in the source). -/
def filterSnowVars (year month : ℕ) (varList : List String) : List String :=
  if "sd_3hr" ∈ varList ∧ (month = 6 ∨ month = 7 ∨ month = 8 ∨ month = 9)
  then (snowFilter1 year varList).filter (fun v => v ≠ "sd_3hr")
  else snowFilter1 year varList

/-- Cache-file path of one (date, variable), relative to the
fusion_raw directory (pipeline.py lines 123-128). -/
def cachePathOf (date var : String) : String :=
  date.take 4 ++ "/" ++ (date.drop 4).take 2 ++ "/" ++ var ++ "_" ++ date
    ++ "_parsed.parquet"

/-- `ensure_day_cache` (pipeline.py lines 94-135) with the
per-variable `_load_or_download_day` outcome abstracted by `dayResult`:
when snow is requested, the year and month are parsed from the date
(`int(...)` on a malformed date raises, giving `.error`), the snow
exclusion is applied, and every remaining variable runs with its
failure caught individually. Returns the ("ok", "failed") summary as
association lists in iteration order (definition below, after its two
summary helpers).

The "ok" summary dictionary built by the `ensure_day_cache` loop:
one entry per variable whose `_load_or_download_day` call returned. -/
def okEntry (date : String) (dayResult : String → Except String Unit)
    (v : String) : Option (String × String) :=
  match dayResult v with
  | .ok _ => some (v, cachePathOf date v)
  | .error _ => none

def okPart (date : String) (dayResult : String → Except String Unit)
    (vars : List String) : List (String × String) :=
  vars.filterMap (okEntry date dayResult)

/-- Entry of the "failed" summary dictionary: the variable with the
caught error message, when its call raised. -/
def failEntry (dayResult : String → Except String Unit)
    (v : String) : Option (String × String) :=
  match dayResult v with
  | .ok _ => none
  | .error e => some (v, e)

/-- The "failed" summary dictionary built by the `ensure_day_cache`
loop: one entry per variable whose call raised, with the message. -/
def failPart (dayResult : String → Except String Unit)
    (vars : List String) : List (String × String) :=
  vars.filterMap (failEntry dayResult)

def ensure_day_cache (date : String) (varList : List String)
    (dayResult : String → Except String Unit) :
    Except String (List (String × String) × List (String × String)) :=
  if "sd_3hr" ∈ varList then
    match pyInt (date.take 4), pyInt ((date.drop 4).take 2) with
    | some y, some m =>
        .ok (okPart date dayResult (filterSnowVars y m varList),
             failPart dayResult (filterSnowVars y m varList))
    | _, _ => .error "invalid date: int() raised"
  else .ok (okPart date dayResult varList, failPart dayResult varList)

/-! ## Shared lemmas -/

theorem mem_dedupFirstAux [DecidableEq α] (a : α) :
    ∀ (l seen : List α), a ∈ dedupFirstAux seen l ↔ a ∈ l ∧ a ∉ seen := by
  intro l
  induction l with
  | nil => intro seen; simp [dedupFirstAux]
  | cons b t ih =>
      intro seen
      by_cases hb : b ∈ seen
      · rw [dedupFirstAux, if_pos hb, ih]
        constructor
        · rintro ⟨h1, h2⟩
          exact ⟨List.mem_cons_of_mem _ h1, h2⟩
        · rintro ⟨h1, h2⟩
          rcases List.mem_cons.mp h1 with rfl | h3
          · exact absurd hb h2
          · exact ⟨h3, h2⟩
      · rw [dedupFirstAux, if_neg hb, List.mem_cons, ih]
        constructor
        · rintro (rfl | ⟨h1, h2⟩)
          · exact ⟨List.mem_cons_self _ _, hb⟩
          · exact ⟨List.mem_cons_of_mem _ h1,
              fun hs => h2 (List.mem_cons_of_mem _ hs)⟩
        · rintro ⟨h1, h2⟩
          by_cases hab : a = b
          · exact Or.inl hab
          · right
            rcases List.mem_cons.mp h1 with rfl | h3
            · exact absurd rfl hab
            · refine ⟨h3, fun hs => ?_⟩
              rcases List.mem_cons.mp hs with rfl | h4
              · exact hab rfl
              · exact h2 h4

theorem nodup_dedupFirstAux [DecidableEq α] :
    ∀ (l seen : List α), (dedupFirstAux seen l).Nodup := by
  intro l
  induction l with
  | nil => intro seen; simp [dedupFirstAux]
  | cons b t ih =>
      intro seen
      by_cases hb : b ∈ seen
      · rw [dedupFirstAux, if_pos hb]
        exact ih _
      · rw [dedupFirstAux, if_neg hb]
        refine List.Nodup.cons (fun hmem => ?_) (ih _)
        exact ((mem_dedupFirstAux b t (b :: seen)).mp hmem).2
          (List.mem_cons_self _ _)

theorem mem_dedupFirst [DecidableEq α] (a : α) (l : List α) :
    a ∈ dedupFirst l ↔ a ∈ l := by
  unfold dedupFirst
  rw [mem_dedupFirstAux]
  simp

theorem nodup_dedupFirst [DecidableEq α] (l : List α) :
    (dedupFirst l).Nodup :=
  nodup_dedupFirstAux l []

/-! ## C8: sentinel normalization -/

/-- C8: sentinel normalization at parse time maps every value strictly
below -900 or strictly above 2000 to the missing marker and leaves
every in-band value unchanged; -999 becomes missing and 15.5 is kept. -/
theorem sentinel_normalization_band (v : ℚ) :
    (v < -900 ∨ v > 2000 → normalizeSentinel v = none) ∧
    (-900 ≤ v → v ≤ 2000 → normalizeSentinel v = some v) ∧
    normalizeSentinel (-999) = none ∧
    normalizeSentinel (31 / 2) = some (31 / 2) := by
  refine ⟨fun h => by simp [normalizeSentinel, h], fun h1 h2 => ?_,
    by norm_num [normalizeSentinel], by norm_num [normalizeSentinel]⟩
  have : ¬(v < -900 ∨ v > 2000) := by
    push_neg
    exact ⟨h1, h2⟩
  simp [normalizeSentinel, this]

/-- C8 witness: a concrete in-band value is preserved. -/
theorem sentinel_normalization_band_witness : normalizeSentinel 0 = some 0 :=
  (sentinel_normalization_band 0).2.1 (by norm_num) (by norm_num)

/-! ## C10: bucket-label scheme -/

/-- C10: the hourly label wraps the end hour modulo 24 (hour 23 yields
"t2300", not "t2324") while the 3-hourly label does not wrap (last
bucket "s2124"); every hourly column name is the prefix followed by the
start hour and (start+1) mod 24, both zero-padded; and the config-side
label lists agree with the labels the pivot constructs per row. -/
theorem bucket_label_scheme :
    colName "t" false 23 = "t2300" ∧
    colName "t" false 23 ≠ "t2324" ∧
    colName "s" true 21 = "s2124" ∧
    (∀ h, h < 24 → ∀ p : String, colName p false h = p ++ pad2 h ++ pad2 ((h + 1) % 24)) ∧
    get_hourly_columns "t" 24 = some ((List.range 24).map (colName "t" false)) ∧
    get_hourly_columns "s" 8 = some ((List.range 8).map (fun k => colName "s" true (3 * k))) := by
  refine ⟨by decide, by decide, by decide, fun h _ p => rfl, by decide, by decide⟩

/-- C10 witness: the scheme at hour 0. -/
theorem bucket_label_scheme_witness :
    colName "t" false 0 = "t" ++ pad2 0 ++ pad2 ((0 + 1) % 24) :=
  bucket_label_scheme.2.2.2.1 0 (by norm_num) "t"

/-! ## C1: parser length guarantee -/

theorem parseGridTokens_some_eq (raw : List ℚ) (n : ℕ) (hn : 0 < n)
    (hne : ¬raw.isEmpty) :
    parseGridTokens raw (some n) =
      if (strippedTokens raw n).length ≠ n then .error "grid token count mismatch"
      else .ok ((strippedTokens raw n).map normalizeSentinel) := by
  unfold parseGridTokens
  rw [if_neg hne]
  simp [hn]

theorem parseGridTokens_ok_length (raw : List ℚ) (n : ℕ) (hn : 0 < n)
    (vs : List (Option ℚ)) (h : parseGridTokens raw (some n) = .ok vs) :
    vs.length = n := by
  by_cases hne : raw.isEmpty
  · rw [parseGridTokens, if_pos hne] at h
    exact absurd h (by simp)
  · rw [parseGridTokens_some_eq raw n hn hne] at h
    split at h
    · exact absurd h (by simp)
    · rename_i hlen
      simp only [ParseResult.ok.injEq] at h
      subst h
      simp only [List.length_map]
      omega

theorem parseGridTokens_short (raw : List ℚ) (n : ℕ) (hn : 0 < n)
    (hne : raw ≠ []) (hlt : raw.length < n) :
    parseGridTokens raw (some n) = .error "grid token count mismatch" := by
  have hstr : strippedTokens raw n = raw := by
    unfold strippedTokens
    rw [if_neg]
    rintro ⟨-, hgt⟩
    omega
  rw [parseGridTokens_some_eq raw n hn (by simpa using hne), if_pos (by rw [hstr]; omega)]

/-- C1: for every response, when the expected grid count `n` is known
and positive, the parser either returns an array of exactly length `n`
or fails; in particular a token count below `n` (header stripping can
only shrink the list) is a hard parse error, never padded. -/
theorem parse_length_guarantee (lines : List RawLine) (n : ℕ) (hn : 0 < n) :
    (∀ vs, parse_grid_response lines (some n) = .ok vs → vs.length = n) ∧
    (dataTokens lines ≠ [] → (dataTokens lines).length < n →
      parse_grid_response lines (some n) = .error "grid token count mismatch") := by
  constructor
  · intro vs h
    unfold parse_grid_response at h
    split at h
    · exact absurd h (by simp)
    · exact parseGridTokens_ok_length _ n hn vs h
  · intro hne hlt
    unfold parse_grid_response
    rw [if_neg, parseGridTokens_short _ n hn hne hlt]
    intro hemp
    apply hne
    unfold dataTokens
    rw [List.isEmpty_iff] at hemp
    rw [hemp]
    simp

/-- C1 witness: a concrete two-token response against expected count 2. -/
theorem parse_length_guarantee_witness :
    ([some (1 : ℚ), some 2] : List (Option ℚ)).length = 2 :=
  (parse_length_guarantee [⟨false, false, [some 1, some 2]⟩] 2 (by norm_num)).1
    [some 1, some 2] (by decide)

/-! ## C3: the dimension-header strip heuristic -/

/-- Tokens of the C3 counterexample: a stray token (7) precedes the
(2, 3) header pair, with expected count 6. -/
def headerStripCounterTokens : List ℚ :=
  [7, 2, 3, 1, 2, 3, 4, 5, 6]

/-- C3 counterexample: the claim says the parser strips exactly the two
header tokens and nothing else, and that any remaining mismatch is a
hard failure — which at this input would leave 7 tokens and so fail.
The code instead strips `raw[i+2:]`, i.e. the pair AND the stray token
before it, and succeeds with the last six values. -/
theorem header_strip_counterexample :
    parseGridTokens headerStripCounterTokens (some 6)
      = .ok [some 1, some 2, some 3, some 4, some 5, some 6] := by
  decide

/-- C3 amended: when the token count exceeds the expected count and the
scan finds a leading two-integer pair with matching product (within the
first 20 tokens), the parser drops the first i+2 tokens — the pair and
every token before it — and re-checks the length; a remaining mismatch
is a hard failure, otherwise the remaining tokens are returned
normalized. -/
theorem header_strip_amended (raw : List ℚ) (n cut : ℕ) (hn : 0 < n)
    (hgt : n < raw.length) (hcut : findHeaderCut raw n = some cut) :
    parseGridTokens raw (some n) =
      if (raw.drop cut).length = n
      then .ok ((raw.drop cut).map normalizeSentinel)
      else .error "grid token count mismatch" := by
  have hne : raw ≠ [] := by
    intro h
    rw [h] at hgt
    simp at hgt
  have hstr : strippedTokens raw n = raw.drop cut := by
    unfold strippedTokens
    rw [if_pos ⟨by omega, hgt⟩, hcut]
  rw [parseGridTokens_some_eq raw n hn (by simpa using hne), hstr]
  by_cases h : (raw.drop cut).length = n
  · rw [if_neg (by omega), if_pos h]
  · rw [if_pos h, if_neg h]

/-- C3 witness: the spec's own example — expected 6, tokens
2, 3, 1.0 … 6.0 — where the header pair sits at the very front, so the
amended rule coincides with the original example. -/
theorem header_strip_amended_witness :
    parseGridTokens [2, 3, 1, 2, 3, 4, 5, 6] (some 6)
      = .ok [some 1, some 2, some 3, some 4, some 5, some 6] := by
  have h := header_strip_amended [2, 3, 1, 2, 3, 4, 5, 6] 6 2 (by norm_num)
    (by norm_num) (by decide)
  simpa using h

/-! ## Retry-loop lemmas (shared by C2 and C6) -/

theorem fetchGo_all_fail (parseFn : String → ParseResult)
    (expected : Option ℕ) (cfg : RetryCfg) (outcomes : ℕ → HttpOutcome)
    (total : ℕ) (tm var date : String)
    (hfail : ∀ j, (runAttempt parseFn expected (outcomes j)).1 = none) :
    ∀ fuel k, 0 < fuel → 1 ≤ k →
      (fetchGo parseFn expected cfg outcomes total tm var date k fuel).result
          = .error (retryFailMsg tm var date)
      ∧ (fetchGo parseFn expected cfg outcomes total tm var date k fuel).attemptsUsed
          = k + fuel - 1
      ∧ (fetchGo parseFn expected cfg outcomes total tm var date k fuel).sleeps
          = (List.range' k (fuel - 1)).map
              (fun a => cfg.initialSleep * cfg.backoff ^ (a - 1)) := by
  intro fuel
  induction fuel with
  | zero => intro k h; omega
  | succ f ih =>
      intro k _ hk
      have h1 := hfail k
      rcases hr : runAttempt parseFn expected (outcomes k) with ⟨v, dlLogs, kopt⟩
      rw [hr] at h1
      simp only at h1
      subst h1
      rw [fetchGo, hr]
      by_cases hf : f = 0
      · subst hf
        simp
      · have hf1 : 0 < f := Nat.pos_of_ne_zero hf
        obtain ⟨r1, r2, r3⟩ := ih (k + 1) hf1 (by omega)
        simp only [if_neg hf]
        refine ⟨r1, by rw [r2]; omega, ?_⟩
        obtain ⟨f1, rfl⟩ := Nat.exists_eq_succ_of_ne_zero hf
        rw [r3]
        rfl

theorem fetchGo_all_fail_log_mem (parseFn : String → ParseResult)
    (expected : Option ℕ) (cfg : RetryCfg) (outcomes : ℕ → HttpOutcome)
    (total : ℕ) (tm var date : String)
    (hfail : ∀ j, (runAttempt parseFn expected (outcomes j)).1 = none) :
    ∀ fuel k j, k ≤ j → j < k + fuel →
      LogEvent.attemptFail
          ((runAttempt parseFn expected (outcomes j)).2.2.getD .emptyResponse)
          j (levelOf j total)
        ∈ (fetchGo parseFn expected cfg outcomes total tm var date k fuel).logs := by
  intro fuel
  induction fuel with
  | zero => intro k j h1 h2; omega
  | succ f ih =>
      intro k j hkj hjk
      have h1 := hfail k
      rcases hr : runAttempt parseFn expected (outcomes k) with ⟨v, dlLogs, kopt⟩
      rw [hr] at h1
      simp only at h1
      subst h1
      rw [fetchGo, hr]
      by_cases hjeq : j = k
      · subst hjeq
        rw [hr]
        by_cases hf : f = 0 <;> simp [hf]
      · have hj1 : k + 1 ≤ j := by omega
        have hj2 : j < (k + 1) + f := by omega
        have hf : f ≠ 0 := by omega
        simp only [if_neg hf]
        exact List.mem_append_right _ (ih (k + 1) j hj1 hj2)

theorem fetchGo_all_fail_final_log (parseFn : String → ParseResult)
    (expected : Option ℕ) (cfg : RetryCfg) (outcomes : ℕ → HttpOutcome)
    (total : ℕ) (tm var date : String)
    (hfail : ∀ j, (runAttempt parseFn expected (outcomes j)).1 = none) :
    ∀ fuel k,
      LogEvent.finalFail
        ∈ (fetchGo parseFn expected cfg outcomes total tm var date k fuel).logs := by
  intro fuel
  induction fuel with
  | zero => intro k; rw [fetchGo]; simp
  | succ f ih =>
      intro k
      have h1 := hfail k
      rcases hr : runAttempt parseFn expected (outcomes k) with ⟨v, dlLogs, kopt⟩
      rw [hr] at h1
      simp only at h1
      subst h1
      rw [fetchGo, hr]
      by_cases hf : f = 0
      · simp [hf]
      · simp only [if_neg hf]
        exact List.mem_append_right _ (ih (k + 1))

theorem fetchGo_first_dl_log (parseFn : String → ParseResult)
    (expected : Option ℕ) (cfg : RetryCfg) (outcomes : ℕ → HttpOutcome)
    (total fuel : ℕ) (tm var date : String) (k : ℕ) (hfuel : 0 < fuel)
    (e : LogEvent)
    (he : e ∈ (runAttempt parseFn expected (outcomes k)).2.1) :
    e ∈ (fetchGo parseFn expected cfg outcomes total tm var date k fuel).logs := by
  obtain ⟨f, rfl⟩ := Nat.exists_eq_succ_of_ne_zero (Nat.pos_iff_ne_zero.mp hfuel)
  rcases hr : runAttempt parseFn expected (outcomes k) with ⟨v, dlLogs, kopt⟩
  rw [hr] at he
  simp only at he
  rw [fetchGo, hr]
  cases v with
  | some vs => simpa using he
  | none =>
      by_cases hf : f = 0 <;> simp [hf, he]

/-! ## C2: 403-forbidden handling -/

/-- Parse function used by the concrete retry-loop scenarios: every
body parses to a one-value grid. -/
def constParse1 : String → ParseResult :=
  fun _ => .ok [some 1]

/-- C2 counterexample: under the default configuration a 403 response
is retried three times by the pipeline loop (the claim says the fetch
fails immediately with no retry attempt), and the value surfaced to the
loop for a 403 is identical to the one surfaced for a transient empty
body, so the two are not distinguished outside the log. -/
theorem forbidden_retry_counterexample :
    (fetch_bucket constParse1 (some 1) defaultRetryCfg
        (fun _ => .response 403 "forbidden") "202401010000" "ta" "20240101").attemptsUsed = 3
    ∧ (download_hour_all_grid (.response 403 "forbidden")).1
        = (download_hour_all_grid (.response 200 "")).1 := by
  decide

/-- C2 amended: a 403 makes `download_hour_all_grid` log an ERROR entry
and return no body immediately (no cache write happens in the
downloader), but the pipeline retry loop receives the same `None` as
for a transient failure and retries the bucket up to the configured
attempt count before raising; the 403 is recorded in the validation
log, not surfaced distinctly in the returned value. -/
theorem forbidden_response_behavior (body : String) (cfg : RetryCfg)
    (parseFn : String → ParseResult) (expected : Option ℕ)
    (outcomes : ℕ → HttpOutcome) (tm var date : String)
    (h403 : ∀ k, outcomes k = .response 403 body) :
    download_hour_all_grid (.response 403 body) = (none, [.dl403]) ∧
    (fetch_bucket parseFn expected cfg outcomes tm var date).result
        = .error (retryFailMsg tm var date) ∧
    (fetch_bucket parseFn expected cfg outcomes tm var date).attemptsUsed
        = retryAttempts cfg ∧
    LogEvent.dl403 ∈ (fetch_bucket parseFn expected cfg outcomes tm var date).logs ∧
    (download_hour_all_grid (.response 403 body)).1
        = (download_hour_all_grid (.response 200 "")).1 := by
  have hdl : download_hour_all_grid (.response 403 body) = (none, [.dl403]) := by
    simp [download_hour_all_grid]
  have hfail : ∀ j, (runAttempt parseFn expected (outcomes j)).1 = none := by
    intro j
    rw [runAttempt, h403 j, hdl]
  have hA : 0 < retryAttempts cfg := le_max_left 1 cfg.attempts
  obtain ⟨r1, r2, -⟩ := fetchGo_all_fail parseFn expected cfg outcomes
    (retryAttempts cfg) tm var date hfail (retryAttempts cfg) 1 hA le_rfl
  refine ⟨hdl, r1, by rw [fetch_bucket, r2]; omega, ?_, by rw [hdl]; rfl⟩
  apply fetchGo_first_dl_log parseFn expected cfg outcomes
    (retryAttempts cfg) (retryAttempts cfg) tm var date 1 hA
  rw [runAttempt, h403 1, hdl]
  simp

/-- C2 amended witness: the concrete all-403 scenario. -/
theorem forbidden_response_behavior_witness :
    (fetch_bucket constParse1 (some 1) defaultRetryCfg
        (fun _ => .response 403 "x") "202401010000" "ta" "20240101").attemptsUsed
      = retryAttempts defaultRetryCfg :=
  (forbidden_response_behavior "x" defaultRetryCfg constParse1 (some 1)
    (fun _ => .response 403 "x") "202401010000" "ta" "20240101"
    (fun _ => rfl)).2.2.1

/-! ## C6: transient-failure retry policy -/

/-- C6 counterexample: a successful first attempt appends no
validation-log entry at all ("every attempt appended to the validation
log" fails for successful attempts; the code only logs failures). -/
theorem retry_log_counterexample :
    (fetch_bucket constParse1 (some 1) defaultRetryCfg
        (fun _ => .response 200 "1.0") "202401010000" "ta" "20240101").logs = []
    ∧ (fetch_bucket constParse1 (some 1) defaultRetryCfg
        (fun _ => .response 200 "1.0") "202401010000" "ta" "20240101").attemptsUsed = 1 := by
  decide

/-- C6 amended: when every attempt of a bucket fails transiently, the
loop retries up to the configured attempt count, sleeping
initial_sleep * backoff^(attempt-1) before each retry; every FAILED
attempt is appended to the validation log (WARN before the final
attempt, ERROR on the final one) — successful attempts append nothing —
and after exhausting the attempts the acquisition raises a RuntimeError
whose message carries the validation-log location. -/
theorem retry_policy_amended (parseFn : String → ParseResult)
    (expected : Option ℕ) (cfg : RetryCfg) (outcomes : ℕ → HttpOutcome)
    (tm var date : String)
    (hfail : ∀ j, (runAttempt parseFn expected (outcomes j)).1 = none) :
    (fetch_bucket parseFn expected cfg outcomes tm var date).result
        = .error (retryFailMsg tm var date) ∧
    (fetch_bucket parseFn expected cfg outcomes tm var date).attemptsUsed
        = retryAttempts cfg ∧
    (fetch_bucket parseFn expected cfg outcomes tm var date).sleeps
        = (List.range' 1 (retryAttempts cfg - 1)).map
            (fun attempt => cfg.initialSleep * cfg.backoff ^ (attempt - 1)) ∧
    (∀ j, 1 ≤ j → j ≤ retryAttempts cfg →
      LogEvent.attemptFail
          ((runAttempt parseFn expected (outcomes j)).2.2.getD .emptyResponse)
          j (levelOf j (retryAttempts cfg))
        ∈ (fetch_bucket parseFn expected cfg outcomes tm var date).logs) ∧
    LogEvent.finalFail ∈ (fetch_bucket parseFn expected cfg outcomes tm var date).logs ∧
    retryFailMsg tm var date
      = ("download/parse retries exhausted: " ++ tm ++ " " ++ var
          ++ ". validation_log=") ++ validationLogPath date var := by
  have hA : 0 < retryAttempts cfg := le_max_left 1 cfg.attempts
  obtain ⟨r1, r2, r3⟩ := fetchGo_all_fail parseFn expected cfg outcomes
    (retryAttempts cfg) tm var date hfail (retryAttempts cfg) 1 hA le_rfl
  refine ⟨r1, by rw [fetch_bucket, r2]; omega, by rw [fetch_bucket, r3], ?_, ?_, rfl⟩
  · intro j hj1 hj2
    exact fetchGo_all_fail_log_mem parseFn expected cfg outcomes
      (retryAttempts cfg) tm var date hfail (retryAttempts cfg) 1 j hj1 (by omega)
  · exact fetchGo_all_fail_final_log parseFn expected cfg outcomes
      (retryAttempts cfg) tm var date hfail (retryAttempts cfg) 1

/-- C6 amended witness: a concrete all-transient-failure run (empty
bodies) under the default configuration. -/
theorem retry_policy_amended_witness :
    (fetch_bucket constParse1 (some 1) defaultRetryCfg
        (fun _ => .response 200 "") "202401010000" "ta" "20240101").sleeps
      = (List.range' 1 (retryAttempts defaultRetryCfg - 1)).map
          (fun attempt => defaultRetryCfg.initialSleep * defaultRetryCfg.backoff ^ (attempt - 1)) := by
  have h : ∀ j : ℕ, (runAttempt constParse1 (some 1)
      ((fun _ : ℕ => HttpOutcome.response 200 "") j)).1 = none := by
    intro j
    show (runAttempt constParse1 (some 1) (HttpOutcome.response 200 "")).1 = none
    decide
  exact (retry_policy_amended constParse1 (some 1) defaultRetryCfg
    (fun _ => .response 200 "") "202401010000" "ta" "20240101" h).2.2.1

/-! ## C7: cache-record row-count invariant -/

theorem runAttempt_some_spec (parseFn : String → ParseResult) (n : ℕ)
    (o : HttpOutcome) (vs : List (Option ℚ))
    (h : (runAttempt parseFn (some n) o).1 = some vs) :
    vs.length = n ∧ vs ≠ [] := by
  unfold runAttempt at h
  split at h
  · simp at h
  · split at h
    · simp at h
    · simp at h
    · rename_i vs0 hp
      split at h
      · simp at h
      · rename_i hne
        split at h
        · rename_i cut heq
          injection heq with heqn
          subst heqn
          split at h <;> simp at h
          subst h
          exact ⟨by omega, by simpa [List.isEmpty_iff] using hne⟩
        · rename_i heq
          exact absurd heq (by simp)

theorem fetchGo_ok_spec (parseFn : String → ParseResult) (n : ℕ)
    (cfg : RetryCfg) (outcomes : ℕ → HttpOutcome) (total : ℕ)
    (tm var date : String) :
    ∀ fuel k vs,
      (fetchGo parseFn (some n) cfg outcomes total tm var date k fuel).result = .ok vs →
      vs.length = n ∧ vs ≠ [] := by
  intro fuel
  induction fuel with
  | zero => intro k vs h; rw [fetchGo] at h; exact absurd h (by simp)
  | succ f ih =>
      intro k vs h
      rcases hr : runAttempt parseFn (some n) (outcomes k) with ⟨v, dlLogs, kopt⟩
      rw [fetchGo, hr] at h
      cases v with
      | some vs0 =>
          simp only [Except.ok.injEq] at h
          subst h
          exact runAttempt_some_spec parseFn n (outcomes k) vs0 (by rw [hr])
      | none =>
          by_cases hf : f = 0
          · subst hf; simp at h
          · simp only [if_neg hf] at h
            exact ih (k + 1) vs h

theorem fetch_bucket_ok_spec (parseFn : String → ParseResult) (n : ℕ)
    (cfg : RetryCfg) (outcomes : ℕ → HttpOutcome) (tm var date : String)
    (vs : List (Option ℚ))
    (h : (fetch_bucket parseFn (some n) cfg outcomes tm var date).result = .ok vs) :
    vs.length = n ∧ vs ≠ [] := by
  rw [fetch_bucket] at h
  exact fetchGo_ok_spec parseFn n cfg outcomes _ tm var date _ 1 vs h

theorem dayGo_ok_spec (parseFn : String → ParseResult) (n : ℕ) (cfg : RetryCfg)
    (outcomes : ℕ → ℕ → HttpOutcome) (var date : String) :
    ∀ (hours : List ℕ) (i : ℕ) (frames : List HourFrame),
      dayGo parseFn (some n) cfg outcomes var date hours i = .ok frames →
      frames.map HourFrame.hour = hours ∧
      (∀ f ∈ frames, f.values.length = n ∧ f.values ≠ []) ∧
      (∀ j, j < hours.length →
        (fetch_bucket parseFn (some n) cfg (outcomes (i + j))
            (tmOf date (hours.getD j 0)) var date).result
          = .ok ((frames.getD j ⟨0, []⟩).values)) := by
  intro hours
  induction hours with
  | nil =>
      intro i frames h
      rw [dayGo] at h
      simp only [Except.ok.injEq] at h
      subst h
      simp
  | cons hd tl ih =>
      intro i frames h
      rw [dayGo] at h
      split at h
      · exact absurd h (by simp)
      · rename_i vs hfet
        split at h
        · exact absurd h (by simp)
        · rename_i frames0 hrest
          simp only [Except.ok.injEq] at h
          subst h
          obtain ⟨ihmap, ihvals, ihfet⟩ := ih (i + 1) frames0 hrest
          refine ⟨by simp [ihmap], ?_, ?_⟩
          · intro f hf
            rcases List.mem_cons.mp hf with rfl | hf2
            · exact fetch_bucket_ok_spec parseFn n cfg (outcomes i) _ var date vs hfet
            · exact ihvals f hf2
          · intro j hj
            cases j with
            | zero => simpa using hfet
            | succ j1 =>
                have hj1 : j1 < tl.length := by simpa using hj
                have hstep := ihfet j1 hj1
                have harith : i + 1 + j1 = i + (j1 + 1) := by omega
                rw [harith] at hstep
                simpa using hstep

theorem cacheRows_const (l : List HourFrame) (n : ℕ)
    (h : ∀ f ∈ l, f.values.length = n) :
    cacheRows l = n * l.length := by
  unfold cacheRows
  induction l with
  | nil => simp
  | cons a t ih =>
      simp only [List.map_cons, List.sum_cons, List.length_cons]
      rw [h a (by simp), ih (fun f hf => h f (by simp [hf]))]
      ring

/-- C7: when the expected grid count `n` is known, a committed cache
record has one frame per required time bucket (in bucket order), every
frame carries exactly `n` grid values — so the record's row count is
`n` times the bucket count — and the record was committed only because
every required bucket's acquisition succeeded; the single cache write
happens after the loop, so a failure partway through (an `.error`
result) commits nothing. -/
theorem day_cache_row_count (parseFn : String → ParseResult) (cfg : RetryCfg)
    (outcomes : ℕ → ℕ → HttpOutcome) (is3h : Bool) (var date : String)
    (n : ℕ) (frames : List HourFrame)
    (h : load_or_download_day parseFn (some n) cfg outcomes is3h var date = .ok frames) :
    frames.length = (bucketHours is3h).length ∧
    cacheRows frames = n * (bucketHours is3h).length ∧
    frames.map HourFrame.hour = bucketHours is3h ∧
    (∀ j, j < (bucketHours is3h).length →
      (fetch_bucket parseFn (some n) cfg (outcomes j)
          (tmOf date ((bucketHours is3h).getD j 0)) var date).result
        = .ok ((frames.getD j ⟨0, []⟩).values)) := by
  unfold load_or_download_day at h
  split at h
  · exact absurd h (by simp)
  · rename_i frames0 hday
    split at h
    · exact absurd h (by simp)
    · simp only [Except.ok.injEq] at h
      subst h
      obtain ⟨hmap, hvals, hfet⟩ := dayGo_ok_spec parseFn n cfg outcomes var date
        (bucketHours is3h) 0 frames0 hday
      have hlen : frames0.length = (bucketHours is3h).length := by
        rw [← hmap]
        simp
      refine ⟨hlen, ?_, hmap, ?_⟩
      · rw [cacheRows_const frames0 n (fun f hf => (hvals f hf).1), hlen]
      · intro j hj
        simpa using hfet j hj

/-- HTTP oracle for the C7 witness scenario: every call answers 200
with a one-token body. -/
def allOkOutcomes : ℕ → ℕ → HttpOutcome :=
  fun _ _ => .response 200 "1.0"

/-- C7 witness: a concrete successful 3-hourly day with grid count 1. -/
theorem day_cache_row_count_witness :
    cacheRows ((bucketHours true).map (fun h => ⟨h, [some 1]⟩))
      = 1 * (bucketHours true).length := by
  have h : load_or_download_day constParse1 (some 1) defaultRetryCfg
      allOkOutcomes true "sd_3hr" "20240101"
      = .ok ((bucketHours true).map (fun h => ⟨h, [some 1]⟩)) := by decide
  exact (day_cache_row_count constParse1 defaultRetryCfg allOkOutcomes true
    "sd_3hr" "20240101" 1 _ h).2.1

/-! ## C9: phase-A per-variable failure isolation -/

theorem summary_lookup (date : String)
    (dayResult : String → Except String Unit) :
    ∀ (vs : List String), vs.Nodup → ∀ v : String,
      (v ∈ vs →
        ((okPart date dayResult vs).lookup v, (failPart dayResult vs).lookup v)
          = match dayResult v with
            | .ok _ => (some (cachePathOf date v), none)
            | .error e => (none, some e)) ∧
      (v ∉ vs →
        (okPart date dayResult vs).lookup v = none ∧
        (failPart dayResult vs).lookup v = none) := by
  intro vs
  induction vs with
  | nil =>
      intro _ v
      exact ⟨fun hv => absurd hv (by simp), fun _ => ⟨rfl, rfl⟩⟩
  | cons a tl ih =>
      intro hnd v
      obtain ⟨ha, htl⟩ := List.nodup_cons.mp hnd
      have hokStep : ∀ u : Unit, dayResult a = .ok u →
          okPart date dayResult (a :: tl)
            = (a, cachePathOf date a) :: okPart date dayResult tl ∧
          failPart dayResult (a :: tl) = failPart dayResult tl := by
        intro u hda
        constructor <;>
          simp [okPart, failPart, List.filterMap_cons, okEntry, failEntry, hda]
      have hfailStep : ∀ e : String, dayResult a = .error e →
          okPart date dayResult (a :: tl) = okPart date dayResult tl ∧
          failPart dayResult (a :: tl) = (a, e) :: failPart dayResult tl := by
        intro e hda
        constructor <;>
          simp [okPart, failPart, List.filterMap_cons, okEntry, failEntry, hda]
      constructor
      · intro hv
        rcases List.mem_cons.mp hv with rfl | hv2
        · cases hda : dayResult v with
          | ok u =>
              obtain ⟨hok, hfail⟩ := hokStep u hda
              have h2 := ((ih htl v).2 ha).2
              rw [hok, hfail]
              simp [List.lookup, h2]
          | error e =>
              obtain ⟨hok, hfail⟩ := hfailStep e hda
              have h1 := ((ih htl v).2 ha).1
              rw [hok, hfail]
              simp [List.lookup, h1]
        · have hva : (v == a) = false := by
            have hne : v ≠ a := fun hEq => ha (hEq ▸ hv2)
            simpa using hne
          have hrec := (ih htl v).1 hv2
          cases hda : dayResult a with
          | ok u =>
              obtain ⟨hok, hfail⟩ := hokStep u hda
              rw [hok, hfail]
              simpa [List.lookup, hva] using hrec
          | error e =>
              obtain ⟨hok, hfail⟩ := hfailStep e hda
              rw [hok, hfail]
              simpa [List.lookup, hva] using hrec
      · intro hv
        have hva : (v == a) = false := by
          have hne : v ≠ a := fun hEq => hv (by rw [hEq]; exact List.mem_cons_self a tl)
          simpa using hne
        have hv2 : v ∉ tl := fun hmem => hv (List.mem_cons_of_mem a hmem)
        have hrec := (ih htl v).2 hv2
        cases hda : dayResult a with
        | ok u =>
            obtain ⟨hok, hfail⟩ := hokStep u hda
            rw [hok, hfail]
            simpa [List.lookup, hva] using hrec
        | error e =>
            obtain ⟨hok, hfail⟩ := hfailStep e hda
            rw [hok, hfail]
            simpa [List.lookup, hva] using hrec

/-- C9: `ensure_day_cache` on a well-formed date never propagates an
exception: it returns the ("ok", "failed") summaries; every variable
surviving the snow exclusion lands in exactly one of the two summaries,
determined solely by its own day outcome — its own cache path on
success, its own error message on failure — so one variable's failure
cannot prevent the others from completing; variables outside the
effective list appear in neither. -/
theorem ensure_day_cache_isolation (date : String) (varList : List String)
    (dayResult : String → Except String Unit) (y m : ℕ)
    (hy : pyInt (date.take 4) = some y)
    (hm : pyInt ((date.drop 4).take 2) = some m)
    (hnd : varList.Nodup) :
    (ensure_day_cache date varList dayResult
      = .ok (okPart date dayResult (filterSnowVars y m varList),
             failPart dayResult (filterSnowVars y m varList))) ∧
    (∀ v ∈ filterSnowVars y m varList,
      ((okPart date dayResult (filterSnowVars y m varList)).lookup v,
       (failPart dayResult (filterSnowVars y m varList)).lookup v)
        = match dayResult v with
          | .ok _ => (some (cachePathOf date v), none)
          | .error e => (none, some e)) ∧
    (∀ v, v ∉ filterSnowVars y m varList →
      (okPart date dayResult (filterSnowVars y m varList)).lookup v = none ∧
      (failPart dayResult (filterSnowVars y m varList)).lookup v = none) := by
  have h1nd : (snowFilter1 y varList).Nodup := by
    unfold snowFilter1
    split
    · exact hnd.filter _
    · exact hnd
  have hfnd : (filterSnowVars y m varList).Nodup := by
    unfold filterSnowVars
    split
    · exact h1nd.filter _
    · exact h1nd
  refine ⟨?_, fun v hv => (summary_lookup date dayResult _ hfnd v).1 hv,
    fun v hv => (summary_lookup date dayResult _ hfnd v).2 hv⟩
  unfold ensure_day_cache
  by_cases hsd : "sd_3hr" ∈ varList
  · rw [if_pos hsd, hy, hm]
  · rw [if_neg hsd]
    have e1 : snowFilter1 y varList = varList := by
      unfold snowFilter1
      rw [if_neg (fun hc => hsd hc.1)]
    have hid : filterSnowVars y m varList = varList := by
      unfold filterSnowVars
      rw [if_neg (fun hc => hsd hc.1), e1]
    rw [hid]

/-- Per-variable outcome used in the C9 witness: `ta` succeeds,
everything else fails. -/
def demoDayResult : String → Except String Unit :=
  fun v => if v = "ta" then .ok () else .error "RuntimeError: retries exhausted"

/-- C9 witness: a concrete summer 2019 day requesting `ta` and
`sd_3hr`. -/
theorem ensure_day_cache_isolation_witness :
    ensure_day_cache "20190701" ["ta", "sd_3hr"] demoDayResult
      = .ok (okPart "20190701" demoDayResult
               (filterSnowVars 2019 7 ["ta", "sd_3hr"]),
             failPart demoDayResult (filterSnowVars 2019 7 ["ta", "sd_3hr"])) :=
  (ensure_day_cache_isolation "20190701" ["ta", "sd_3hr"] demoDayResult 2019 7
    (by decide) (by decide) (by decide)).1

/-! ## C4: spatial-aggregation missing-value policy -/

theorem filterMap_filter_isSome {α β : Type} (f : α → Option β)
    (p : α → Bool) (hp : ∀ a, p a = (f a).isSome) (l : List α) :
    (l.filter p).filterMap f = l.filterMap f := by
  induction l with
  | nil => rfl
  | cons a t ih =>
      cases hf : f a with
      | none =>
          have hpa : p a = false := by rw [hp a, hf]; rfl
          simp [List.filter_cons, List.filterMap_cons, hpa, hf, ih]
      | some b =>
          have hpa : p a = true := by rw [hp a, hf]; rfl
          simp [List.filter_cons, List.filterMap_cons, hpa, hf, ih]

theorem joinMapped_filter (mapping : ℕ → Option ℤ) (rows : List GridRow) :
    joinMapped mapping (rows.filter (fun r => (mapping r.grid_idx).isSome))
      = joinMapped mapping rows := by
  unfold joinMapped
  exact filterMap_filter_isSome _ _ (fun r => by simp) rows

theorem mem_joinMapped (mapping : ℕ → Option ℤ) (rows : List GridRow)
    (law : ℤ) (r : GridRow) :
    (law, r) ∈ joinMapped mapping rows
      ↔ r ∈ rows ∧ mapping r.grid_idx = some law := by
  unfold joinMapped
  rw [List.mem_filterMap]
  constructor
  · rintro ⟨r0, hr0, heq⟩
    rcases hm : mapping r0.grid_idx with _ | law0
    · rw [hm] at heq; simp at heq
    · rw [hm] at heq
      simp only [Option.map_some', Option.some.injEq, Prod.mk.injEq] at heq
      obtain ⟨h1, h2⟩ := heq
      subst h2
      exact ⟨hr0, by rw [hm, h1]⟩
  · rintro ⟨hr, hm⟩
    exact ⟨r, hr, by rw [hm]; rfl⟩

theorem getD_map_range {α : Type} (g : ℕ → α) (n j : ℕ) (hj : j < n)
    (d : α) : ((List.range n).map g).getD j d = g j := by
  have h1 : ((List.range n).map g)[j]? = some (g j) := by
    simp [List.getElem?_map, List.getElem?_range, hj]
  simp [List.getD, h1]

theorem fillRow_getD (cols : List String) (vals : List (Option ℚ)) (j : ℕ)
    (hj : j < cols.length) (hlen : vals.length = cols.length) :
    (fillRow cols vals).getD j none
      = if startsWithPS (cols.getD j "") then some ((vals.getD j none).getD 0)
        else vals.getD j none := by
  induction cols generalizing vals j with
  | nil => simp at hj
  | cons c cs ih =>
      cases vals with
      | nil => simp at hlen
      | cons v vs =>
          cases j with
          | zero => simp [fillRow]
          | succ j1 =>
              have hj1 : j1 < cs.length := by simpa using hj
              have hlen1 : vs.length = cs.length := by simpa using hlen
              simpa [fillRow] using ih vs j1 hj1 hlen1

theorem meanOpt_map_some (l : List ℚ) (hne : l ≠ []) :
    meanOpt (l.map some) = some (l.sum / l.length) := by
  have hfm : (l.map some).filterMap id = l := by
    induction l with
    | nil => rfl
    | cons a t ih => simp [List.filterMap_cons, ih]
  simp [meanOpt, hfm, hne]

/-- C4: region aggregation (mean method, as the pipeline calls it)
never emits anything for a grid row whose mapping is null — dropping
those rows first changes nothing, and every emitted key comes from a
mapped row; missing values in precipitation/snow-prefixed columns are
replaced by 0 before the group-reduce, so such a column's regional
value is the mean over ALL group rows with missing read as 0; a
temperature-class column keeps its missing values, so its regional
value is the mean over present values only. -/
theorem aggregate_missing_value_policy (mapping : ℕ → Option ℤ)
    (rows : List GridRow) (cols : List String)
    (hrect : ∀ r ∈ rows, r.vals.length = cols.length) :
    aggregate_grid_to_lawid mapping rows cols .mean
      = aggregate_grid_to_lawid mapping
          (rows.filter (fun r => (mapping r.grid_idx).isSome)) cols .mean ∧
    ∀ k vals, (k, vals) ∈ aggregate_grid_to_lawid mapping rows cols .mean →
      (∃ r ∈ rows, mapping r.grid_idx = some k.2 ∧ r.date = k.1) ∧
      vals.length = cols.length ∧
      ∀ j, j < cols.length →
        (startsWithPS (cols.getD j "") = true →
          vals.getD j none
            = some (((groupRows mapping rows k).map
                  (fun r => ((r.vals.getD j none).getD 0 : ℚ))).sum
                / ((groupRows mapping rows k).length : ℚ))) ∧
        (startsWithPS (cols.getD j "") = false →
          vals.getD j none
            = meanOpt ((groupRows mapping rows k).map
                (fun r => r.vals.getD j none))) := by
  constructor
  · unfold aggregate_grid_to_lawid groupKeys filledRows
    rw [joinMapped_filter]
  · intro k vals hmem
    unfold aggregate_grid_to_lawid at hmem
    rw [List.mem_map] at hmem
    obtain ⟨k0, hk0, heq⟩ := hmem
    have hkk : k0 = k := congrArg Prod.fst heq
    subst hkk
    have hvals : vals = (List.range cols.length).map (fun j =>
        applyMethod .mean (((filledRows mapping rows cols).filter
          (fun q => q.1 = k0)).map (fun q => q.2.getD j none))) :=
      (congrArg Prod.snd heq).symm
    subst hvals
    have hkmem : ∃ p ∈ joinMapped mapping rows, (p.2.date, p.1) = k0 := by
      have h1 := (mem_dedupFirst _ _).mp hk0
      rw [List.mem_map] at h1
      obtain ⟨p, hp, hpe⟩ := h1
      exact ⟨p, hp, hpe⟩
    obtain ⟨⟨law0, r0⟩, hp0, hp0k⟩ := hkmem
    have hkey : r0.date = k0.1 ∧ law0 = k0.2 := by
      simpa [Prod.ext_iff] using hp0k
    have hr0 := (mem_joinMapped mapping rows law0 r0).mp hp0
    have hgrpmem : r0 ∈ groupRows mapping rows k0 := by
      unfold groupRows
      exact List.mem_map_of_mem _
        (List.mem_filter.mpr ⟨hp0, by simp [hp0k]⟩)
    have hgne : groupRows mapping rows k0 ≠ [] := fun hh => by
      rw [hh] at hgrpmem
      simp at hgrpmem
    have hsub : ∀ r ∈ groupRows mapping rows k0, r ∈ rows := by
      intro r hr
      unfold groupRows at hr
      rw [List.mem_map] at hr
      obtain ⟨⟨law1, r1⟩, hp1, hpe1⟩ := hr
      have hp1m := List.mem_filter.mp hp1
      have := (mem_joinMapped mapping rows law1 r1).mp hp1m.1
      simpa [← hpe1] using this.1
    refine ⟨⟨r0, hr0.1, by rw [hr0.2, hkey.2], hkey.1⟩, by simp, ?_⟩
    intro j hj
    have hgrp : ((filledRows mapping rows cols).filter
          (fun q => q.1 = k0)).map (fun q => q.2.getD j none)
        = (groupRows mapping rows k0).map
            (fun r => (fillRow cols r.vals).getD j none) := by
      unfold filledRows groupRows
      rw [List.filter_map, List.map_map, List.map_map]
      rfl
    rw [getD_map_range _ _ j hj, hgrp]
    constructor
    · intro hps
      have hmapEq : (groupRows mapping rows k0).map
            (fun r => (fillRow cols r.vals).getD j none)
          = ((groupRows mapping rows k0).map
              (fun r => ((r.vals.getD j none).getD 0 : ℚ))).map some := by
        rw [List.map_map]
        refine List.map_congr_left fun r hr => ?_
        rw [fillRow_getD cols r.vals j hj (hrect r (hsub r hr)), if_pos hps]
        rfl
      rw [hmapEq]
      show meanOpt _ = _
      rw [meanOpt_map_some _ (by simpa using hgne)]
      rw [List.length_map]
    · intro hps
      show meanOpt _ = _
      refine congrArg meanOpt ?_
      refine List.map_congr_left fun r hr => ?_
      rw [fillRow_getD cols r.vals j hj (hrect r (hsub r hr)),
        if_neg (by rw [hps]; simp)]

/-- Mapping for the C4 witness: grid 2 is unmapped (ocean), the rest
map to region 100. -/
def demoMapping : ℕ → Option ℤ :=
  fun g => if g = 2 then none else some 100

/-- Rows for the C4 witness: one row with a missing precipitation
value, one with a missing temperature value, one unmapped row. -/
def demoRows : List GridRow :=
  [{ grid_idx := 0, date := "d", vals := [none, some 4] },
   { grid_idx := 1, date := "d", vals := [some 2, none] },
   { grid_idx := 2, date := "d", vals := [some 9, some 9] }]

/-- C4 witness: on the demo table the precipitation column of region
100 is the zero-filled mean. -/
theorem aggregate_missing_value_policy_witness :
    ([some (1 : ℚ), some 4] : List (Option ℚ)).getD 0 none
      = some (((groupRows demoMapping demoRows ("d", 100)).map
            (fun r => ((r.vals.getD 0 none).getD 0 : ℚ))).sum
          / ((groupRows demoMapping demoRows ("d", 100)).length : ℚ)) := by
  have hagg : aggregate_grid_to_lawid demoMapping demoRows ["p0001", "t0001"] .mean
      = [(("d", 100), [some 1, some 4])] := by
    simp only [aggregate_grid_to_lawid, groupKeys, filledRows, joinMapped,
      demoMapping, demoRows, dedupFirst, dedupFirstAux, fillRow, applyMethod,
      meanOpt, startsWithPS, List.filterMap_cons, List.filter_cons,
      List.map_cons, List.map_nil, List.filterMap_nil, List.filter_nil]
    simp +decide [List.range_succ, dedupFirst, dedupFirstAux, meanOpt,
      List.filterMap_cons, List.filterMap_nil, List.filter_cons,
      List.filter_nil]
  have hmem : (("d", (100 : ℤ)), ([some (1 : ℚ), some 4] : List (Option ℚ)))
      ∈ aggregate_grid_to_lawid demoMapping demoRows ["p0001", "t0001"] .mean := by
    rw [hagg]
    simp
  exact (((aggregate_missing_value_policy demoMapping demoRows ["p0001", "t0001"]
      (by decide)).2 ("d", 100) [some 1, some 4] hmem).2.2 0 (by norm_num)).1
    (by decide)

/-! ## C5: pivot shape -/

/-- Rows of the C5 counterexample: two grids, each with the full set of
eight 3-hour buckets, the second grid entirely missing (NaN). -/
def pivotCounterRows : List HourRow :=
  (List.range 8).map
      (fun k => { grid_idx := 0, date := "d", hour := k * 3, value := some 1 })
    ++ (List.range 8).map
      (fun k => { grid_idx := 1, date := "d", hour := k * 3, value := none })

/-- C5 counterexample: a fully-missing grid index disappears from the
pivot output (pandas drops its all-NaN groups before unstacking), so
the claim "exactly one row per distinct grid index" fails: two distinct
grid indexes, one output row. -/
theorem pivot_row_counterexample :
    (pivot_hourly_to_columns pivotCounterRows "s" true).keys = [(0, "d")]
    ∧ (dedupFirst (pivotCounterRows.map HourRow.grid_idx)).length = 2 := by
  decide

theorem string_append2_cancel (p a b c d : String)
    (h : p ++ a ++ b = p ++ c ++ d) :
    a.data ++ b.data = c.data ++ d.data := by
  have h2 : p.data ++ (a.data ++ b.data) = p.data ++ (c.data ++ d.data) := by
    have h3 := congrArg String.data h
    simpa [String.data_append, List.append_assoc] using h3
  exact List.append_cancel_left h2

theorem colName_inj_on_buckets (pfx : String) (is3h : Bool) (h1 h2 : ℕ)
    (hm1 : h1 ∈ bucketHours is3h) (hm2 : h2 ∈ bucketHours is3h)
    (he : colName pfx is3h h1 = colName pfx is3h h2) : h1 = h2 := by
  cases is3h with
  | false =>
      rw [show colName pfx false h1 = pfx ++ pad2 h1 ++ pad2 ((h1 + 1) % 24) from rfl,
        show colName pfx false h2 = pfx ++ pad2 h2 ++ pad2 ((h2 + 1) % 24) from rfl] at he
      have hd := string_append2_cancel pfx _ _ _ _ he
      have key : ∀ x1 ∈ bucketHours false, ∀ x2 ∈ bucketHours false,
          (pad2 x1).data ++ (pad2 ((x1 + 1) % 24)).data
            = (pad2 x2).data ++ (pad2 ((x2 + 1) % 24)).data → x1 = x2 := by decide
      exact key h1 hm1 h2 hm2 hd
  | true =>
      rw [show colName pfx true h1 = pfx ++ pad2 h1 ++ pad2 (h1 + 3) from rfl,
        show colName pfx true h2 = pfx ++ pad2 h2 ++ pad2 (h2 + 3) from rfl] at he
      have hd := string_append2_cancel pfx _ _ _ _ he
      have key : ∀ x1 ∈ bucketHours true, ∀ x2 ∈ bucketHours true,
          (pad2 x1).data ++ (pad2 (x1 + 3)).data
            = (pad2 x2).data ++ (pad2 (x2 + 3)).data → x1 = x2 := by decide
      exact key h1 hm1 h2 hm2 hd

theorem rows_hour_mem (rows : List HourRow) (is3h : Bool)
    (hbuckets : ∀ g ∈ dedupFirst (rows.map HourRow.grid_idx),
      ((rows.filter (fun r2 => r2.grid_idx = g)).map HourRow.hour).Perm
        (bucketHours is3h))
    (r : HourRow) (hr : r ∈ rows) : r.hour ∈ bucketHours is3h := by
  have hg : r.grid_idx ∈ dedupFirst (rows.map HourRow.grid_idx) := by
    rw [mem_dedupFirst]
    exact List.mem_map_of_mem _ hr
  have hmem : r.hour
      ∈ (rows.filter (fun r2 => r2.grid_idx = r.grid_idx)).map HourRow.hour :=
    List.mem_map_of_mem _ (List.mem_filter.mpr ⟨hr, by simp⟩)
  exact (hbuckets r.grid_idx hg).mem_iff.mp hmem

theorem bucketHours_nodup (is3h : Bool) : (bucketHours is3h).Nodup := by
  cases is3h <;> decide

theorem countP_hour (l : List HourRow) (h : ℕ) :
    l.countP (fun r => r.hour = h) = (l.map HourRow.hour).count h := by
  induction l with
  | nil => simp
  | cons a t ih =>
      simp only [List.countP_cons, List.map_cons, List.count_cons, ih]
      by_cases hah : a.hour = h
      · simp [hah]
      · simp [hah]

theorem group_row_unique (rows : List HourRow) (pfx : String) (is3h : Bool)
    (d : String) (hd : ∀ r2 ∈ rows, r2.date = d)
    (hbuckets : ∀ g ∈ dedupFirst (rows.map HourRow.grid_idx),
      ((rows.filter (fun r2 => r2.grid_idx = g)).map HourRow.hour).Perm
        (bucketHours is3h))
    (r : HourRow) (hr : r ∈ rows) :
    rows.filter (fun r2 => aggKey pfx is3h r2 = aggKey pfx is3h r) = [r] := by
  have hfe : rows.filter (fun r2 => aggKey pfx is3h r2 = aggKey pfx is3h r)
      = rows.filter (fun r2 => r2.grid_idx = r.grid_idx ∧ r2.hour = r.hour) := by
    refine List.filter_congr fun r2 hr2 => ?_
    refine decide_eq_decide.mpr ?_
    constructor
    · intro hk
      have h1 : r2.grid_idx = r.grid_idx := congrArg (fun k => k.1) hk
      have h3 : colName pfx is3h r2.hour = colName pfx is3h r.hour :=
        congrArg (fun k => k.2.2) hk
      exact ⟨h1, colName_inj_on_buckets pfx is3h _ _
        (rows_hour_mem rows is3h hbuckets r2 hr2)
        (rows_hour_mem rows is3h hbuckets r hr) h3⟩
    · rintro ⟨h1, h2⟩
      unfold aggKey
      rw [h1, h2, hd r2 hr2, hd r hr]
  rw [hfe]
  have hrmem : r ∈ rows.filter
      (fun r2 => r2.grid_idx = r.grid_idx ∧ r2.hour = r.hour) :=
    List.mem_filter.mpr ⟨hr, by simp⟩
  have hlen : (rows.filter
      (fun r2 => r2.grid_idx = r.grid_idx ∧ r2.hour = r.hour)).length = 1 := by
    have hsplit : rows.filter (fun r2 => r2.grid_idx = r.grid_idx ∧ r2.hour = r.hour)
        = (rows.filter (fun r2 => r2.grid_idx = r.grid_idx)).filter
            (fun r2 => r2.hour = r.hour) := by
      rw [List.filter_filter]
      refine List.filter_congr fun r2 _ => ?_
      by_cases h1 : r2.grid_idx = r.grid_idx <;> by_cases h2 : r2.hour = r.hour <;>
        simp [h1, h2]
    have hgmem : r.grid_idx ∈ dedupFirst (rows.map HourRow.grid_idx) := by
      rw [mem_dedupFirst]
      exact List.mem_map_of_mem _ hr
    rw [hsplit, ← List.countP_eq_length_filter, countP_hour,
      (hbuckets r.grid_idx hgmem).count_eq]
    exact List.count_eq_one_of_mem (bucketHours_nodup is3h)
      (rows_hour_mem rows is3h hbuckets r hr)
  obtain ⟨a, ha⟩ := List.length_eq_one.mp hlen
  rw [ha] at hrmem ⊢
  simp only [List.mem_singleton] at hrmem
  rw [hrmem]

theorem mem_aggedOf (rows : List HourRow) (pfx : String) (is3h : Bool)
    (d : String) (hd : ∀ r2 ∈ rows, r2.date = d)
    (hbuckets : ∀ g ∈ dedupFirst (rows.map HourRow.grid_idx),
      ((rows.filter (fun r2 => r2.grid_idx = g)).map HourRow.hour).Perm
        (bucketHours is3h))
    (k : ℕ × String × String) (v : ℚ) :
    (k, v) ∈ aggedOf pfx is3h rows
      ↔ ∃ r ∈ rows, aggKey pfx is3h r = k ∧ r.value = some v := by
  unfold aggedOf
  rw [List.mem_filterMap]
  constructor
  · rintro ⟨k0, hk0, hmap⟩
    rcases hfs : firstSome ((rows.filter
        (fun r2 => aggKey pfx is3h r2 = k0)).map HourRow.value) with _ | v0
    · rw [hfs] at hmap
      simp at hmap
    · rw [hfs] at hmap
      simp only [Option.map_some', Option.some.injEq, Prod.mk.injEq] at hmap
      obtain ⟨hk0k, hv0v⟩ := hmap
      subst hk0k
      subst hv0v
      rw [mem_dedupFirst, List.mem_map] at hk0
      obtain ⟨r, hr, hkr⟩ := hk0
      rw [← hkr] at hfs
      rw [group_row_unique rows pfx is3h d hd hbuckets r hr] at hfs
      simp only [List.map_cons, List.map_nil] at hfs
      cases hrv : r.value with
      | none =>
          rw [hrv] at hfs
          simp [firstSome] at hfs
      | some w =>
          rw [hrv] at hfs
          simp only [firstSome, List.filterMap_cons, List.filterMap_nil,
            id_eq, List.head?_cons, Option.some.injEq] at hfs
          exact ⟨r, hr, hkr, by rw [hrv, hfs]⟩
  · rintro ⟨r, hr, hkr, hv⟩
    refine ⟨aggKey pfx is3h r, ?_, ?_⟩
    · rw [mem_dedupFirst]
      exact List.mem_map_of_mem _ hr
    · rw [group_row_unique rows pfx is3h d hd hbuckets r hr]
      simp [firstSome, hv, hkr]

theorem colOrder_eq (pfx : String) (is3h : Bool) :
    colOrder pfx is3h = (bucketHours is3h).map (colName pfx is3h) := by
  cases is3h with
  | false =>
      rw [show colOrder pfx false
          = (List.range 24).map (fun h => pfx ++ pad2 h ++ pad2 ((h + 1) % 24))
          from rfl,
        show bucketHours false = List.range 24 from rfl]
      exact List.map_congr_left fun h _ => rfl
  | true =>
      rw [show colOrder pfx true
          = (List.range 8).map (fun h => pfx ++ pad2 (h * 3) ++ pad2 ((h + 1) * 3))
          from rfl,
        show bucketHours true = (List.range 8).map (fun k => k * 3) from rfl,
        List.map_map]
      refine List.map_congr_left fun k _ => ?_
      show pfx ++ pad2 (k * 3) ++ pad2 ((k + 1) * 3)
        = colName pfx true (k * 3)
      rw [show colName pfx true (k * 3)
          = pfx ++ pad2 (k * 3) ++ pad2 (k * 3 + 3) from rfl, Nat.succ_mul]

/-- C5 amended: for a single-date (grid_idx, hour, value) table that
has exactly the expected time buckets per grid index (one row per
bucket), AND in which every grid index has at least one present value
and every bucket has at least one present value, the pivot emits
exactly one row per distinct grid index and every expected canonical
bucket column, in canonical order. (Without the two presence
conditions, pandas `pivot_table(dropna=True)` silently drops an
all-missing grid's row and an all-missing bucket's column.) -/
theorem pivot_shape_amended (rows : List HourRow) (pfx : String)
    (is3h : Bool) (d : String)
    (hd : ∀ r2 ∈ rows, r2.date = d)
    (hbuckets : ∀ g ∈ dedupFirst (rows.map HourRow.grid_idx),
      ((rows.filter (fun r2 => r2.grid_idx = g)).map HourRow.hour).Perm
        (bucketHours is3h))
    (hgrid : ∀ g ∈ dedupFirst (rows.map HourRow.grid_idx),
      ∃ r ∈ rows, r.grid_idx = g ∧ r.value.isSome)
    (hbucket : ∀ h ∈ bucketHours is3h,
      ∃ r ∈ rows, r.hour = h ∧ r.value.isSome) :
    (pivot_hourly_to_columns rows pfx is3h).cols = colOrder pfx is3h ∧
    (pivot_hourly_to_columns rows pfx is3h).keys.Perm
      ((dedupFirst (rows.map HourRow.grid_idx)).map (fun g => (g, d))) := by
  have hkeys_def : (pivot_hourly_to_columns rows pfx is3h).keys
      = dedupFirst ((aggedOf pfx is3h rows).map
          (fun kv => (kv.1.1, kv.1.2.1))) := rfl
  have hkey_mem : ∀ g d2, (g, d2) ∈ (pivot_hourly_to_columns rows pfx is3h).keys
      ↔ (d2 = d ∧ g ∈ dedupFirst (rows.map HourRow.grid_idx)) := by
    intro g d2
    rw [hkeys_def, mem_dedupFirst, List.mem_map]
    constructor
    · rintro ⟨⟨k0, v0⟩, hkv, hpe⟩
      obtain ⟨r, hr, hkr, -⟩ :=
        (mem_aggedOf rows pfx is3h d hd hbuckets k0 v0).mp hkv
      subst hkr
      have hpe2 : (r.grid_idx, r.date) = (g, d2) := hpe
      have h1 : r.grid_idx = g := congrArg Prod.fst hpe2
      have h2 : r.date = d2 := congrArg Prod.snd hpe2
      refine ⟨by rw [← h2, hd r hr], ?_⟩
      rw [← h1, mem_dedupFirst]
      exact List.mem_map_of_mem _ hr
    · rintro ⟨rfl, hg⟩
      obtain ⟨r, hr, hrg, hrv⟩ := hgrid g hg
      obtain ⟨v, hv⟩ := Option.isSome_iff_exists.mp hrv
      refine ⟨(aggKey pfx is3h r, v),
        (mem_aggedOf rows pfx is3h d2 hd hbuckets _ v).mpr ⟨r, hr, rfl, hv⟩, ?_⟩
      show (r.grid_idx, r.date) = (g, d2)
      rw [hrg, hd r hr]
  have hkeysperm : (pivot_hourly_to_columns rows pfx is3h).keys.Perm
      ((dedupFirst (rows.map HourRow.grid_idx)).map (fun g => (g, d))) := by
    refine (List.perm_ext_iff_of_nodup ?_ ?_).mpr ?_
    · rw [hkeys_def]
      exact nodup_dedupFirst _
    · exact (nodup_dedupFirst _).map
        (fun a b h => by simpa using congrArg Prod.fst h)
    · rintro ⟨g, d2⟩
      rw [hkey_mem g d2, List.mem_map]
      constructor
      · rintro ⟨rfl, hg⟩
        exact ⟨g, hg, rfl⟩
      · rintro ⟨g0, hg0, hpe⟩
        have h1 : g0 = g := congrArg Prod.fst hpe
        have h2 : d = d2 := congrArg Prod.snd hpe
        exact ⟨h2.symm, h1 ▸ hg0⟩
  have hcols_def : (pivot_hourly_to_columns rows pfx is3h).cols
      = (colOrder pfx is3h).filter (fun c =>
          ((dedupFirst ((aggedOf pfx is3h rows).map (fun kv => kv.1.2.2))).filter
            (fun c2 => (dedupFirst ((aggedOf pfx is3h rows).map
                (fun kv => (kv.1.1, kv.1.2.1)))).any
              (fun kk => (aggLookup (aggedOf pfx is3h rows) kk.1 kk.2 c2).isSome))).contains
            c) := rfl
  have hcols : (pivot_hourly_to_columns rows pfx is3h).cols = colOrder pfx is3h := by
    rw [hcols_def]
    refine List.filter_eq_self.mpr fun c hc => ?_
    rw [colOrder_eq, List.mem_map] at hc
    obtain ⟨h, hh, hch⟩ := hc
    obtain ⟨r, hr, hrh, hrv⟩ := hbucket h hh
    obtain ⟨v, hv⟩ := Option.isSome_iff_exists.mp hrv
    have hmem : (aggKey pfx is3h r, v) ∈ aggedOf pfx is3h rows :=
      (mem_aggedOf rows pfx is3h d hd hbuckets _ v).mpr ⟨r, hr, rfl, hv⟩
    have hkc : (aggKey pfx is3h r).2.2 = c := by
      show colName pfx is3h r.hour = c
      rw [hrh, hch]
    have hcu : c ∈ dedupFirst ((aggedOf pfx is3h rows).map
        (fun kv => kv.1.2.2)) := by
      rw [mem_dedupFirst, List.mem_map]
      exact ⟨(aggKey pfx is3h r, v), hmem, hkc⟩
    have hkk : (r.grid_idx, d) ∈ dedupFirst ((aggedOf pfx is3h rows).map
        (fun kv => (kv.1.1, kv.1.2.1))) := by
      rw [mem_dedupFirst, List.mem_map]
      refine ⟨(aggKey pfx is3h r, v), hmem, ?_⟩
      show (r.grid_idx, r.date) = (r.grid_idx, d)
      rw [hd r hr]
    have hfind : ((aggedOf pfx is3h rows).find?
        (fun kv => kv.1 = (r.grid_idx, d, c))).isSome = true := by
      rw [List.find?_isSome]
      refine ⟨(aggKey pfx is3h r, v), hmem, ?_⟩
      simp only [decide_eq_true_eq]
      show aggKey pfx is3h r = (r.grid_idx, d, c)
      unfold aggKey
      rw [hd r hr, hrh, hch]
    have hlook : (aggLookup (aggedOf pfx is3h rows) r.grid_idx d c).isSome
        = true := by
      unfold aggLookup
      cases hfd : (aggedOf pfx is3h rows).find?
          (fun kv => kv.1 = (r.grid_idx, d, c)) with
      | none => rw [hfd] at hfind; simp at hfind
      | some kv => rfl
    have hct : c ∈ ((dedupFirst ((aggedOf pfx is3h rows).map
        (fun kv => kv.1.2.2))).filter
          (fun c2 => (dedupFirst ((aggedOf pfx is3h rows).map
              (fun kv => (kv.1.1, kv.1.2.1)))).any
            (fun kk => (aggLookup (aggedOf pfx is3h rows) kk.1 kk.2 c2).isSome))) := by
      refine List.mem_filter.mpr ⟨hcu, ?_⟩
      rw [List.any_eq_true]
      exact ⟨(r.grid_idx, d), hkk, hlook⟩
    exact List.elem_iff.mpr hct
  exact ⟨hcols, hkeysperm⟩

/-- Rows of the C5 amended witness: two grids, all eight 3-hour
buckets, every value present. -/
def pivotWitnessRows : List HourRow :=
  (List.range 8).map
      (fun k => { grid_idx := 0, date := "d", hour := k * 3, value := some 1 })
    ++ (List.range 8).map
      (fun k => { grid_idx := 1, date := "d", hour := k * 3, value := some 2 })

/-- C5 amended witness: the concrete fully-present table keeps every
canonical 3-hour column. -/
theorem pivot_shape_amended_witness :
    (pivot_hourly_to_columns pivotWitnessRows "s" true).cols
      = colOrder "s" true :=
  (pivot_shape_amended pivotWitnessRows "s" true "d" (by decide) (by decide)
    (by decide) (by decide)).1

end KmaFusion
